import Mathlib

/-!
Shallow embedding of the Bochan audio library core:
the playback queue of `BochanAudioPlayer` (queueData / fillData) and the
encoder `BochanEncoder` (initialize / deinitialize / encode and its
format-conversion matrix), together with proofs of the specified
properties.

Bytes are modelled as `Nat` (a concrete byte is a value below 256; the
hypotheses state the bound where it matters), sizes as `Nat` (`size_t`),
C `int` values that can be negative (return codes) as `Int`, and the
backend's `float` samples as `ℚ` (the int16→float normalization maps
int16 values to exactly representable 32-bit floats, so rational
arithmetic is exact here).
-/

namespace Bochan

/-! ## Playback queue (BochanAudioPlayer)

Only `BochanAudioPlayer.h` is part of the sources; the member function
bodies (`queueData`, `fillData`, `flush`) are not, so the queue is
modelled from the spec. -/

/-- Modelled from the spec: the playback-queue state of `BochanAudioPlayer`
(`BochanAudioPlayer.cpp` is not among the sources; the header declares
`sampleBuffer`, `sampleBufferPos` and the queue operations). `sampleBuffer`
holds the stored bytes, `sampleBufferPos` is the read cursor into the
consumed prefix; `maxBufferSize` caps the stored unread bytes. The store's
capacity growth between `minBufferSize` and `maxBufferSize` is transparent
to the byte contents and is not modelled. -/
structure PlayerState where
  sampleBuffer : List Nat
  sampleBufferPos : Nat
  minBufferSize : Nat
  maxBufferSize : Nat
deriving DecidableEq

/-- The unread bytes of the queue: the stored bytes past the read cursor. -/
def PlayerState.unread (st : PlayerState) : List Nat :=
  st.sampleBuffer.drop st.sampleBufferPos

/-- Modelled from the spec: the player state right after
`initialize(sampleRate, minBufferSize, maxBufferSize)` succeeds — an empty
store and a zero read cursor. -/
def initialPlayer (minBufferSize maxBufferSize : Nat) : PlayerState :=
  { sampleBuffer := [], sampleBufferPos := 0,
    minBufferSize := minBufferSize, maxBufferSize := maxBufferSize }

/-- Modelled from the spec: `BochanAudioPlayer::queueData(buff)` appends the
buffer's valid bytes to the store under the lock and returns the number of
bytes queued; if appending would grow the unread bytes beyond
`maxBufferSize` the call rejects the write and returns 0 (backpressure). -/
def queueData (st : PlayerState) (data : List Nat) : PlayerState × Nat :=
  if st.maxBufferSize < st.unread.length + data.length then
    (st, 0)
  else
    ({ st with sampleBuffer := st.sampleBuffer ++ data }, data.length)

/-- Modelled from the spec: `BochanAudioPlayer::fillData(ptr, stream, len)`
copies up to `len` unread bytes starting at the read cursor into the
output stream, advances the cursor, and zero-fills the shortfall
(silence on underrun). Periodic compaction discards only the consumed
prefix and is transparent to the unread bytes, so it is not modelled. -/
def fillData (st : PlayerState) (len : Nat) : PlayerState × List Nat :=
  let n := min len st.unread.length
  ({ st with sampleBufferPos := st.sampleBufferPos + n },
   st.unread.take n ++ List.replicate (len - n) 0)

/-- A sequence of `queueData` calls, one per chunk. -/
def queueAll (st : PlayerState) : List (List Nat) → PlayerState
  | [] => st
  | d :: ds => queueAll (queueData st d).1 ds

/-- A sequence of `fillData` calls, one per requested length; returns the
final state and the concatenation of the streamed outputs. -/
def fillAll (st : PlayerState) : List Nat → PlayerState × List Nat
  | [] => (st, [])
  | l :: ls =>
    let st1 := (fillData st l).1
    ((fillAll st1 ls).1, (fillData st l).2 ++ (fillAll st1 ls).2)

/-! ## Encoder (BochanEncoder)

`BochanEncoder.cpp` is among the sources and is embedded directly. The
ffmpeg backend (`avcodec_*`, `av_*`) and `CodecUtil` are external to the
sources; their outcomes enter as environment records, exactly one field
per call site. -/

/-- The ffmpeg sample formats distinguished by `BochanEncoder::encode`'s
switch, plus representatives of the `default` arm. -/
inductive AVSampleFormat where
  | AV_SAMPLE_FMT_NONE
  | AV_SAMPLE_FMT_U8
  | AV_SAMPLE_FMT_S16
  | AV_SAMPLE_FMT_S16P
  | AV_SAMPLE_FMT_FLT
  | AV_SAMPLE_FMT_FLTP
  | AV_SAMPLE_FMT_DBL
  | AV_SAMPLE_FMT_DBLP
deriving DecidableEq

/-- Codec identifiers as far as the embedded code distinguishes them. -/
inductive AVCodecID where
  | AV_CODEC_ID_NONE
  | AV_CODEC_ID_OPUS
  | AV_CODEC_ID_FLAC
deriving DecidableEq

/-- Modelled from the spec: the library's own codec selector enum
(`BochanCodec`, declared outside the sources); `None` is the neutral
default `deinitialize` resets to. -/
inductive BochanCodec where
  | None
  | Opus
  | Flac
deriving DecidableEq

/-- The fields of ffmpeg's `AVCodecContext` that `BochanEncoder` reads or
writes. -/
structure AVCodecContext where
  sample_fmt : AVSampleFormat
  bit_rate : Nat
  sample_rate : Int
  channels : Nat
  frame_size : Nat
deriving DecidableEq

/-- The fields of ffmpeg's `AVFrame` that `BochanEncoder` reads or writes
(the data planes are produced by the conversion step, `convertFrame`). -/
structure AVFrame where
  nb_samples : Nat
  format : AVSampleFormat
  channels : Nat
deriving DecidableEq

/-- The member state of `BochanEncoder`: `initialized`, the session fields
(`bochanCodec`, `sampleRate`, `bitRate`, `sampleFormat`, `codecId`,
`bytesPerSample`) and the backend resources (`codec`, `context`, `packet`,
`frame`), the pointers modelled as presence (`Option` / `Bool`). -/
structure EncoderState where
  initialized : Bool
  bochanCodec : BochanCodec
  sampleRate : Int
  bitRate : Nat
  sampleFormat : AVSampleFormat
  codecId : AVCodecID
  hasCodec : Bool
  context : Option AVCodecContext
  packetAllocated : Bool
  frame : Option AVFrame
  bytesPerSample : Nat
deriving DecidableEq

/-- Embeds `BochanEncoder::deinitialize`: frees the frame, packet and
context and resets every session field to its neutral default. The
result does not depend on the input state, so repeated calls are safe. -/
def deinitializeEncoder (_st : EncoderState) : EncoderState :=
  { initialized := false
    frame := none
    packetAllocated := false
    context := none
    sampleFormat := .AV_SAMPLE_FMT_NONE
    bytesPerSample := 0
    hasCodec := false
    codecId := .AV_CODEC_ID_NONE
    bochanCodec := .None
    sampleRate := 0
    bitRate := 0 }

/-- The fully reset encoder state that `deinitializeEncoder` produces. -/
def freshEncoder : EncoderState :=
  { initialized := false
    frame := none
    packetAllocated := false
    context := none
    sampleFormat := .AV_SAMPLE_FMT_NONE
    bytesPerSample := 0
    hasCodec := false
    codecId := .AV_CODEC_ID_NONE
    bochanCodec := .None
    sampleRate := 0
    bitRate := 0 }

/-- The outcomes of the external calls `BochanEncoder::initialize` makes,
one field per call site: `CodecUtil::getCodecSampleFormat`,
`CodecUtil::getCodecId`, `avcodec_find_encoder`,
`CodecUtil::isSampleRateSupported`, `CodecUtil::isFormatSupported`,
`avcodec_alloc_context3`, `avcodec_open2` (return code and the frame size
the codec negotiates, 0 meaning unrestricted), `CodecUtil::CHANNELS` and
`CodecUtil::DEFAULT_FRAMESIZE` (constants declared outside the sources),
`av_packet_alloc`, `av_frame_alloc`, `av_frame_get_buffer` and
`av_get_bytes_per_sample`. -/
structure InitEnv where
  codecSampleFormat : AVSampleFormat
  codecId : AVCodecID
  findEncoderOk : Bool
  sampleRateSupported : Bool
  formatSupported : Bool
  allocContextOk : Bool
  openRet : Int
  negotiatedFrameSize : Nat
  channels : Nat
  defaultFrameSize : Nat
  packetAllocOk : Bool
  frameAllocOk : Bool
  frameBufferRet : Int
  bytesPerSampleOf : AVSampleFormat → Nat

/-- Embeds `BochanEncoder::initialize(bochanCodec, sampleRate, bitRate)`:
an already-initialized encoder is deinitialized first; the session fields
are assigned; then codec resolution, support validation, context
allocation, codec open (after which an unrestricted frame size falls back
to the default), packet/frame allocation and frame-buffer allocation run
in source order, each failure calling `deinitialize` and returning
`false`. The source assigns the session fields progressively before the
checks, but `deinitialize` resets every one of those fields to the same
constants whatever the state at the failure point, so the embedding
gathers the assignments into the success result and lets each failure
path return the reset state. -/
def initializeEncoder (st : EncoderState) (env : InitEnv)
    (bochanCodec : BochanCodec) (sampleRate : Int) (bitRate : Nat) :
    Bool × EncoderState :=
  let st0 := if st.initialized then deinitializeEncoder st else st
  if env.codecId = .AV_CODEC_ID_NONE then (false, deinitializeEncoder st0) else
  if ¬env.findEncoderOk then (false, deinitializeEncoder st0) else
  if ¬env.sampleRateSupported then (false, deinitializeEncoder st0) else
  if ¬env.formatSupported then (false, deinitializeEncoder st0) else
  if ¬env.allocContextOk then (false, deinitializeEncoder st0) else
  if env.openRet < 0 then (false, deinitializeEncoder st0) else
  let ctx1 : AVCodecContext :=
    { sample_fmt := env.codecSampleFormat, bit_rate := bitRate,
      sample_rate := sampleRate, channels := env.channels,
      frame_size := if env.negotiatedFrameSize = 0 then env.defaultFrameSize
        else env.negotiatedFrameSize }
  if ¬env.packetAllocOk then (false, deinitializeEncoder st0) else
  if ¬env.frameAllocOk then (false, deinitializeEncoder st0) else
  let fr : AVFrame := { nb_samples := ctx1.frame_size,
                        format := ctx1.sample_fmt, channels := ctx1.channels }
  if env.frameBufferRet < 0 then (false, deinitializeEncoder st0) else
  (true, { st0 with bochanCodec := bochanCodec, sampleRate := sampleRate,
                    bitRate := bitRate, sampleFormat := env.codecSampleFormat,
                    codecId := env.codecId, hasCodec := env.findEncoderOk,
                    context := some ctx1, packetAllocated := env.packetAllocOk,
                    frame := some fr,
                    bytesPerSample := env.bytesPerSampleOf ctx1.sample_fmt,
                    initialized := true })

/-- The context value standing for a dereference of a null `context`;
`getSamplesPerFrame` and `getInputBufferByteSize` only dereference the
context when `initialized` holds, where the context is present. -/
def nullContext : AVCodecContext :=
  { sample_fmt := .AV_SAMPLE_FMT_NONE, bit_rate := 0, sample_rate := 0,
    channels := 0, frame_size := 0 }

/-- The frame value standing for a dereference of a null `frame`. -/
def nullFrame : AVFrame :=
  { nb_samples := 0, format := .AV_SAMPLE_FMT_NONE, channels := 0 }

/-- Embeds `BochanEncoder::getSamplesPerFrame`:
`initialized ? context->frame_size : 0`. -/
def getSamplesPerFrame (st : EncoderState) : Nat :=
  if st.initialized then (st.context.getD nullContext).frame_size else 0

/-- Embeds `BochanEncoder::getInputBufferByteSize`:
`initialized ? context->frame_size * sizeof(uint16_t) * context->channels : 0`. -/
def getInputBufferByteSize (st : EncoderState) : Nat :=
  if st.initialized then
    (st.context.getD nullContext).frame_size * 2 *
      (st.context.getD nullContext).channels
  else 0

/-- Modelled from the spec: the `ByteBuffer` class is declared outside the
sources. A Buffer owns a byte array (reached through `getPointer()`) and a
used size; `data` is the valid byte prefix, so `getUsedSize` is its
length. The object at the `ByteBuffer*` address itself holds bookkeeping
fields (the data pointer and the sizes), not the byte array; `objectRepr`
is the byte image of that object, which is what a `memcpy` whose source is
the `ByteBuffer*` itself reads. -/
structure ByteBuffer where
  data : List Nat
  objectRepr : List Nat
deriving DecidableEq

/-- The buffer's used size: the length of its valid byte prefix. -/
def ByteBuffer.getUsedSize (b : ByteBuffer) : Nat :=
  b.data.length

/-- Reads a byte list as consecutive `uint16_t` values, little-endian
(the x86 target of the code); a trailing odd byte is past the last full
sample and is never read by the conversion loops. -/
def bytesToU16 : List Nat → List Nat
  | lo :: hi :: rest => (lo + 256 * hi) :: bytesToU16 rest
  | _ => []

/-- Reinterprets a `uint16_t` value as the `int16_t` with the same bits. -/
def u16ToS16 (x : Nat) : Int :=
  if x < 32768 then (x : Int) else (x : Int) - 65536

/-- Reads a byte list as consecutive `int16_t` values, little-endian. -/
def bytesToS16 (bs : List Nat) : List Int :=
  (bytesToU16 bs).map u16ToS16

/-- Modelled from the spec: `CodecUtil::int16ToFloat` (declared outside the
sources) normalizes an int16 sample to a float in `[-1, 1]`, i.e. divides
by 32768; every such value is exactly representable as a 32-bit float, so
the rational value is exact. -/
def int16ToFloat (x : Int) : ℚ :=
  (x : ℚ) / 32768

/-- Embeds the `AV_SAMPLE_FMT_S16P` arm of `BochanEncoder::encode`: plane
`j` at index `i` receives `uint16` sample `i * channels + j` of the input
bytes (de-interleaving at the same bit width). -/
def s16pPlanes (samples : ByteBuffer) (nb ch : Nat) : List (List Nat) :=
  (List.range ch).map fun j =>
    (List.range nb).map fun i => (bytesToU16 samples.data).getD (i * ch + j) 0

/-- Embeds the `AV_SAMPLE_FMT_FLTP` arm of `BochanEncoder::encode`: plane
`j` at index `i` receives `int16ToFloat` of `int16` sample
`i * channels + j` of the input bytes (de-interleave and normalize). -/
def fltpPlanes (samples : ByteBuffer) (nb ch : Nat) : List (List ℚ) :=
  (List.range ch).map fun j =>
    (List.range nb).map fun i =>
      int16ToFloat ((bytesToS16 samples.data).getD (i * ch + j) 0)

/-- The converted frame contents `BochanEncoder::encode` writes into the
frame's data planes, one constructor per supported layout. -/
inductive FrameData where
  | s16Planar (planes : List (List Nat))
  | s16Interleaved (bytes : List Nat)
  | fltPlanar (planes : List (List ℚ))
  | fltInterleaved (vals : List ℚ)
deriving DecidableEq

/-- Embeds the conversion switch of `BochanEncoder::encode` over
`frame->format`. The `AV_SAMPLE_FMT_S16` arm embeds
`memcpy(frame->data[0], samples, samples->getUsedSize())` as written: the
source operand is `samples` — the `ByteBuffer*` itself — so the bytes
copied are the object representation, not the byte array behind
`samples->getPointer()`. The `AV_SAMPLE_FMT_FLT` arm is the buffer
overload of `CodecUtil::int16ToFloat` (outside the sources), modelled from
the spec as elementwise normalization keeping interleaving. Any other
format hits the `default` arm, which fails. -/
def convertFrame (fmt : AVSampleFormat) (nb ch : Nat) (samples : ByteBuffer) :
    Option FrameData :=
  match fmt with
  | .AV_SAMPLE_FMT_S16P => some (.s16Planar (s16pPlanes samples nb ch))
  | .AV_SAMPLE_FMT_S16 =>
      some (.s16Interleaved (samples.objectRepr.take samples.getUsedSize))
  | .AV_SAMPLE_FMT_FLTP => some (.fltPlanar (fltpPlanes samples nb ch))
  | .AV_SAMPLE_FMT_FLT =>
      some (.fltInterleaved ((bytesToS16 samples.data).map int16ToFloat))
  | _ => none

/-- One iteration outcome of the `avcodec_receive_packet` drain loop in
`BochanEncoder::encode`: a completed packet, `EAGAIN`/`EOF` (normal end of
the drain), or another negative code (an error). -/
inductive ReceiveOutcome where
  | packet (bytes : List Nat)
  | again
  | fail (code : Int)

/-- The outcomes of the external calls `BochanEncoder::encode` makes:
`av_frame_make_writable`, `avcodec_send_frame` and the successive
`avcodec_receive_packet` results (a conforming backend eventually answers
`EAGAIN`/`EOF`, so a finite list suffices). -/
structure EncodeEnv where
  makeWritableRet : Int
  sendFrameRet : Int
  received : List ReceiveOutcome

/-- Embeds the drain loop of `BochanEncoder::encode`: packets accumulate in
order until `EAGAIN`/`EOF` breaks the loop; any other error discards the
result (`return {}`), modelled as `none`. -/
def drainPackets : List ReceiveOutcome → Option (List (List Nat))
  | [] => some []
  | .again :: _ => some []
  | .fail _ :: _ => none
  | .packet bs :: rest =>
    match drainPackets rest with
    | none => none
    | some ps => some (bs :: ps)

/-- Embeds `BochanEncoder::encode(samples)` (release build: the entry
`assert` compiles away under `NDEBUG`): ensure the frame is writable;
validate `samples->getUsedSize() / sizeof(uint16_t)` against
`frame->nb_samples * frame->channels`; convert the input into the frame's
layout; send the frame; drain the emitted packets, each copied into a
pool buffer sized to the packet. Every failure returns the empty packet
sequence. -/
def encode (st : EncoderState) (env : EncodeEnv) (samples : ByteBuffer) :
    List (List Nat) :=
  if env.makeWritableRet < 0 then []
  else if samples.getUsedSize / 2 ≠
      (st.frame.getD nullFrame).nb_samples *
        (st.frame.getD nullFrame).channels then []
  else
    match convertFrame (st.frame.getD nullFrame).format
        (st.frame.getD nullFrame).nb_samples
        (st.frame.getD nullFrame).channels samples with
    | none => []
    | some _ =>
      if env.sendFrameRet < 0 then []
      else
        match drainPackets env.received with
        | none => []
        | some ps => ps

/-- Synthetic re-interleaving of planar data (the spec's round-trip check
runs outside the codec): output position `i * channels + j` reads plane
`j` at index `i`. -/
def interleavePlanes (planes : List (List ℚ)) (nb ch : Nat) : List ℚ :=
  (List.range nb).flatMap fun i =>
    (List.range ch).map fun j => (planes.getD j []).getD i 0

/-- Synthetic inverse of `int16ToFloat` on its exact range: undo the
normalization by 32768. -/
def floatToInt16Exact (q : ℚ) : ℚ :=
  q * 32768

/-! ## Concrete instances used by the witnesses -/

/-- The context of the spec's scenario: frame size 960, 2 channels,
planar 16-bit format. -/
def ctxC3 : AVCodecContext :=
  { sample_fmt := .AV_SAMPLE_FMT_S16P, bit_rate := 64000,
    sample_rate := 48000, channels := 2, frame_size := 960 }

/-- The frame matching `ctxC3`. -/
def frameC3 : AVFrame :=
  { nb_samples := 960, format := .AV_SAMPLE_FMT_S16P, channels := 2 }

/-- An initialized encoder in the spec's scenario (frame size 960,
2 channels). -/
def stC3 : EncoderState :=
  { initialized := true, bochanCodec := .Opus, sampleRate := 48000,
    bitRate := 64000, sampleFormat := .AV_SAMPLE_FMT_S16P,
    codecId := .AV_CODEC_ID_OPUS, hasCodec := true, context := some ctxC3,
    packetAllocated := true, frame := some frameC3, bytesPerSample := 2 }

/-- A frame like `frameC3` but with a double-precision (unsupported)
sample format. -/
def frameDbl : AVFrame :=
  { nb_samples := 960, format := .AV_SAMPLE_FMT_DBL, channels := 2 }

/-- An initialized encoder whose negotiated format is outside the four
supported layouts. -/
def stDbl : EncoderState :=
  { stC3 with sampleFormat := .AV_SAMPLE_FMT_DBL, frame := some frameDbl }

/-- A benign encode environment: writable frame, successful send, one
emitted packet then `EAGAIN`. -/
def envOkPacket : EncodeEnv :=
  { makeWritableRet := 0, sendFrameRet := 0,
    received := [.packet [9, 9, 9], .again] }

/-- An input buffer one byte larger than the 3840-byte input contract of
`stC3`. -/
def oversizedBuffer : ByteBuffer :=
  { data := List.replicate 3841 1, objectRepr := [] }

/-- A correctly sized (3840-byte) input buffer. -/
def exactBuffer : ByteBuffer :=
  { data := List.replicate 3840 1, objectRepr := [] }

/-- A small buffer whose object representation (pointer and size fields)
differs from its byte data, as any heap-backed `ByteBuffer` does. -/
def s16Buffer : ByteBuffer :=
  { data := [1, 2, 3, 4], objectRepr := [160, 134, 1, 0, 0, 0, 0, 0] }

/-- A 4-byte interleaved int16 test pattern (samples 0x1234 and 0xABCD,
little-endian). -/
def fltpBuffer : ByteBuffer :=
  { data := [52, 18, 205, 171], objectRepr := [] }

/-- An environment where every external call of the encoder's
initialization succeeds and the codec negotiates frame size 960 with
2 channels. -/
def envInitOk : InitEnv :=
  { codecSampleFormat := .AV_SAMPLE_FMT_FLTP, codecId := .AV_CODEC_ID_OPUS,
    findEncoderOk := true, sampleRateSupported := true,
    formatSupported := true, allocContextOk := true, openRet := 0,
    negotiatedFrameSize := 960, channels := 2, defaultFrameSize := 480,
    packetAllocOk := true, frameAllocOk := true, frameBufferRet := 0,
    bytesPerSampleOf := fun _ => 4 }

/-- An environment where codec-ID resolution fails. -/
def envInitBadCodec : InitEnv :=
  { envInitOk with codecId := .AV_CODEC_ID_NONE }

/-- A player state mid-stream: one byte consumed, two unread. -/
def playerC2 : PlayerState :=
  { sampleBuffer := [5, 6, 7], sampleBufferPos := 1,
    minBufferSize := 1, maxBufferSize := 8 }

/-- A benign encode environment whose backend emits no packet. -/
def envNoPacket : EncodeEnv :=
  { makeWritableRet := 0, sendFrameRet := 0, received := [] }

/-- A 3-byte input buffer (far below the 3840-byte input contract). -/
def tinyBuffer : ByteBuffer :=
  { data := [1, 2, 3], objectRepr := [] }

/-! ## Playback-queue lemmas and claims C1, C2 -/

/-- Replacing the store leaves the cursor in place; the unread bytes are
the new store past the cursor. -/
theorem unread_set_buffer (st : PlayerState) (b : List Nat) :
    ({ st with sampleBuffer := b } : PlayerState).unread =
      b.drop st.sampleBufferPos :=
  rfl

/-- `fillData` leaves the store unchanged. -/
theorem fillData_buffer (st : PlayerState) (len : Nat) :
    ((fillData st len).1).sampleBuffer = st.sampleBuffer :=
  rfl

/-- `fillData` advances the cursor by the number of bytes copied. -/
theorem fillData_pos (st : PlayerState) (len : Nat) :
    ((fillData st len).1).sampleBufferPos =
      st.sampleBufferPos + min len st.unread.length :=
  rfl

/-- `fillData` leaves the size bounds unchanged. -/
theorem fillData_max (st : PlayerState) (len : Nat) :
    ((fillData st len).1).maxBufferSize = st.maxBufferSize :=
  rfl

/-- The stream `fillData` writes: the copied unread prefix, then silence
for the shortfall. -/
theorem fillData_out (st : PlayerState) (len : Nat) :
    (fillData st len).2 =
      st.unread.take (min len st.unread.length) ++
        List.replicate (len - min len st.unread.length) 0 :=
  rfl

/-- After `fillData`, the unread bytes are the previous ones minus the
copied prefix. -/
theorem fillData_unread (st : PlayerState) (len : Nat) :
    ((fillData st len).1).unread =
      st.unread.drop (min len st.unread.length) := by
  show st.sampleBuffer.drop (st.sampleBufferPos + min len st.unread.length) =
    (st.sampleBuffer.drop st.sampleBufferPos).drop (min len st.unread.length)
  rw [List.drop_drop]

/-- A `queueData` call whose bytes fit under the cap appends them and
reports the full length queued. -/
theorem queueData_accept (st : PlayerState) (d : List Nat)
    (h : st.unread.length + d.length ≤ st.maxBufferSize) :
    queueData st d =
      ({ st with sampleBuffer := st.sampleBuffer ++ d }, d.length) := by
  simp only [queueData]
  rw [if_neg (by omega)]

/-- With the cursor at 0 and the total incoming bytes within
`maxBufferSize`, every `queueData` call of the sequence is accepted and
the store ends as the concatenation of the chunks. -/
theorem queueAll_spec (ds : List (List Nat)) :
    ∀ st : PlayerState, st.sampleBufferPos = 0 →
    st.sampleBuffer.length + (ds.map List.length).sum ≤ st.maxBufferSize →
    (queueAll st ds).sampleBuffer = st.sampleBuffer ++ ds.flatten ∧
    (queueAll st ds).sampleBufferPos = 0 ∧
    (queueAll st ds).maxBufferSize = st.maxBufferSize := by
  induction ds with
  | nil =>
    intro st hpos _
    simp [queueAll, hpos]
  | cons d ds ih =>
    intro st hpos hcap
    simp only [List.map_cons, List.sum_cons] at hcap
    have hacc : st.unread.length + d.length ≤ st.maxBufferSize := by
      simp only [PlayerState.unread, hpos, List.drop_zero]
      omega
    have hst1 : (queueData st d).1 =
        { st with sampleBuffer := st.sampleBuffer ++ d } := by
      rw [queueData_accept st d hacc]
    have key := ih ({ st with sampleBuffer := st.sampleBuffer ++ d })
      (by simpa using hpos)
      (by show (st.sampleBuffer ++ d).length + (ds.map List.length).sum ≤
            st.maxBufferSize
          rw [List.length_append]
          omega)
    have hrec : queueAll st (d :: ds) =
        queueAll (queueData st d).1 ds := rfl
    rw [hrec, hst1]
    refine ⟨?_, key.2.1, by simpa using key.2.2⟩
    rw [key.1]
    simp [List.append_assoc]

/-- A `fillData` sequence whose requests sum to exactly the unread byte
count streams exactly the unread bytes, with no padding. -/
theorem fillAll_exact (ls : List Nat) :
    ∀ st : PlayerState, ls.sum = st.unread.length →
    (fillAll st ls).2 = st.unread := by
  induction ls with
  | nil =>
    intro st h
    simp only [List.sum_nil] at h
    simp [fillAll, (List.eq_nil_of_length_eq_zero h.symm).symm]
  | cons l ls ih =>
    intro st h
    simp only [List.sum_cons] at h
    have hmin : min l st.unread.length = l := by omega
    have hun1 : ((fillData st l).1).unread = st.unread.drop l := by
      rw [fillData_unread, hmin]
    have hlen2 : ls.sum = ((fillData st l).1).unread.length := by
      rw [hun1, List.length_drop]
      omega
    have hrec : (fillAll st (l :: ls)).2 =
        (fillData st l).2 ++ (fillAll (fillData st l).1 ls).2 := rfl
    rw [hrec, ih _ hlen2, hun1, fillData_out, hmin]
    simp [List.take_append_drop]

/-- C1: for every sequence of `queueData` calls whose total byte count is
at most `maxBufferSize`, a subsequent `fillData` sequence requesting in
aggregate exactly that many bytes returns the concatenation of the queued
bytes in order, with no zero (silence) bytes inserted. -/
theorem claim_C1 (minB maxB : Nat) (chunks : List (List Nat)) (lens : List Nat)
    (hcap : (chunks.map List.length).sum ≤ maxB)
    (hlens : lens.sum = (chunks.map List.length).sum) :
    (fillAll (queueAll (initialPlayer minB maxB) chunks) lens).2 =
      chunks.flatten := by
  obtain ⟨hbuf, hpos, _⟩ := queueAll_spec chunks (initialPlayer minB maxB) rfl
    (by simpa [initialPlayer] using hcap)
  have hun : (queueAll (initialPlayer minB maxB) chunks).unread =
      chunks.flatten := by
    simp only [PlayerState.unread]
    rw [hpos, hbuf]
    simp [initialPlayer]
  rw [fillAll_exact lens _ (by rw [hun, List.length_flatten]; exact hlens), hun]

/-- Witness for C1: two queued chunks, read back in two fills. -/
theorem claim_C1_witness :
    (fillAll (queueAll (initialPlayer 4 10) [[1, 2], [3]]) [2, 1]).2 =
      [1, 2, 3] :=
  claim_C1 4 10 [[1, 2], [3]] [2, 1] (by decide) (by decide)

/-- C2: a `fillData` call requesting at least the unread byte count
streams all unread bytes followed by zeros for the shortfall, and bytes
queued after that call are returned in full by a subsequent `fillData`. -/
theorem claim_C2 (st : PlayerState) (len : Nat) (d : List Nat)
    (hpos : st.sampleBufferPos ≤ st.sampleBuffer.length)
    (hlen : st.unread.length ≤ len) (hd : d.length ≤ st.maxBufferSize) :
    (fillData st len).2 = st.unread ++ List.replicate (len - st.unread.length) 0 ∧
    (queueData (fillData st len).1 d).2 = d.length ∧
    (fillData (queueData (fillData st len).1 d).1 d.length).2 = d := by
  have hmin : min len st.unread.length = st.unread.length := min_eq_right hlen
  have hcursor : st.sampleBufferPos + st.unread.length = st.sampleBuffer.length := by
    have : st.unread.length = st.sampleBuffer.length - st.sampleBufferPos := by
      simp [PlayerState.unread]
    omega
  have hfill1 : (fillData st len).2 =
      st.unread ++ List.replicate (len - st.unread.length) 0 := by
    rw [fillData_out, hmin, List.take_length]
  have hun1 : ((fillData st len).1).unread = [] := by
    rw [fillData_unread, hmin]
    exact List.drop_eq_nil_of_le (le_refl _)
  have hacc : ((fillData st len).1).unread.length + d.length ≤
      ((fillData st len).1).maxBufferSize := by
    rw [hun1, fillData_max]
    simpa using hd
  have hq := queueData_accept _ d hacc
  have hst2 : (queueData (fillData st len).1 d).1 =
      { (fillData st len).1 with
        sampleBuffer := ((fillData st len).1).sampleBuffer ++ d } := by
    rw [hq]
  have hun2 : ((queueData (fillData st len).1 d).1).unread = d := by
    rw [hst2, unread_set_buffer, fillData_buffer, fillData_pos, hmin, hcursor]
    exact List.drop_left _ _
  refine ⟨hfill1, by rw [hq], ?_⟩
  have hmin2 : min d.length ((queueData (fillData st len).1 d).1).unread.length =
      d.length := by rw [hun2]; omega
  rw [fillData_out, hmin2, hun2, List.take_length]
  simp

/-- Witness for C2: a mid-stream player with two unread bytes, an
underrunning fill of 4, then 2 freshly queued bytes read back. -/
theorem claim_C2_witness :
    (fillData playerC2 4).2 = [6, 7] ++ List.replicate (4 - 2) 0 ∧
    (queueData (fillData playerC2 4).1 [8, 9]).2 = 2 ∧
    (fillData (queueData (fillData playerC2 4).1 [8, 9]).1 2).2 = [8, 9] := by
  have h := claim_C2 playerC2 4 [8, 9] (by decide) (by decide) (by decide)
  simpa [playerC2, PlayerState.unread] using h

/-! ## Encoder claims -/

/-- C4: `getInputBufferByteSize` returns `frame_size × channels × 2` when
the encoder is initialized, and 0 when it is not. -/
theorem claim_C4 (st : EncoderState) (ctx : AVCodecContext) :
    (st.initialized = true → st.context = some ctx →
      getInputBufferByteSize st = ctx.frame_size * ctx.channels * 2) ∧
    (st.initialized = false → getInputBufferByteSize st = 0) := by
  constructor
  · intro hinit hctx
    simp only [getInputBufferByteSize, hinit, if_pos, hctx, Option.getD_some]
    ring
  · intro hinit
    simp [getInputBufferByteSize, hinit]

/-- Witness for C4: the spec's scenario, frame size 960 and 2 channels
give 3840 bytes. -/
theorem claim_C4_witness : getInputBufferByteSize stC3 = 3840 := by
  have h := (claim_C4 stC3 ctxC3).1 rfl rfl
  simpa [ctxC3] using h

set_option maxHeartbeats 1000000 in
/-- Initialization either reports success or ends in the neutral state. -/
theorem encInitFalse (st : EncoderState) (env : InitEnv) (c : BochanCodec)
    (r : Int) (b : Nat) :
    (initializeEncoder st env c r b).1 = true ∨
    (initializeEncoder st env c r b).2 = freshEncoder := by
  unfold initializeEncoder
  repeat' split
  all_goals simp [deinitializeEncoder, freshEncoder]

set_option maxHeartbeats 1000000 in
/-- A successful initialization sets `initialized` and installs the
context negotiated from the environment. -/
theorem encInitTrue (st : EncoderState) (env : InitEnv) (c : BochanCodec)
    (r : Int) (b : Nat) :
    (initializeEncoder st env c r b).1 = false ∨
    ((initializeEncoder st env c r b).2.initialized = true ∧
      (initializeEncoder st env c r b).2.context = some
        ({ sample_fmt := env.codecSampleFormat, bit_rate := b,
           sample_rate := r, channels := env.channels,
           frame_size := if env.negotiatedFrameSize = 0 then
             env.defaultFrameSize else env.negotiatedFrameSize } :
          AVCodecContext)) := by
  unfold initializeEncoder
  repeat' split
  all_goals simp

/-- C7: every failure path of the encoder's initialization returns
`false` and leaves the encoder in the fully reset neutral state. -/
theorem claim_C7 (st : EncoderState) (env : InitEnv) (c : BochanCodec)
    (r : Int) (b : Nat)
    (hfail : (initializeEncoder st env c r b).1 = false) :
    (initializeEncoder st env c r b).2 = freshEncoder := by
  rcases encInitFalse st env c r b with h | h
  · rw [hfail] at h
    cases h
  · exact h

/-- Witness for C7: initialization with a codec that resolves to no codec
ID fails and leaves the neutral state. -/
theorem claim_C7_witness :
    (initializeEncoder freshEncoder envInitBadCodec .Opus 48000 64000).2 =
      freshEncoder :=
  claim_C7 freshEncoder envInitBadCodec .Opus 48000 64000 (by decide)

/-- C9: `getSamplesPerFrame` returns 0 on an uninitialized encoder, and
after a successful initialization returns the backend-negotiated frame
size, or the default frame size when the backend imposes none. -/
theorem claim_C9 :
    (∀ st : EncoderState, st.initialized = false →
      getSamplesPerFrame st = 0) ∧
    (∀ (st : EncoderState) (env : InitEnv) (c : BochanCodec) (r : Int)
      (b : Nat), (initializeEncoder st env c r b).1 = true →
      getSamplesPerFrame (initializeEncoder st env c r b).2 =
        if env.negotiatedFrameSize = 0 then env.defaultFrameSize
        else env.negotiatedFrameSize) := by
  constructor
  · intro st h
    simp [getSamplesPerFrame, h]
  · intro st env c r b hok
    rcases encInitTrue st env c r b with h | ⟨h1, h2⟩
    · rw [hok] at h
      cases h
    · simp [getSamplesPerFrame, h1, h2]

/-- Witness for C9: a successful initialization with a codec-mandated
frame size of 960 samples. -/
theorem claim_C9_witness :
    getSamplesPerFrame
      (initializeEncoder freshEncoder envInitOk .Opus 48000 64000).2 =
      960 := by
  have h := claim_C9.2 freshEncoder envInitOk .Opus 48000 64000 (by decide)
  simpa [envInitOk] using h

/-- C8: on an initialized encoder whose negotiated sample format is
outside the four supported layouts, `encode` returns the empty packet
sequence for every input and environment. -/
theorem claim_C8 (st : EncoderState) (env : EncodeEnv) (samples : ByteBuffer)
    (_hinit : st.initialized = true)
    (h1 : (st.frame.getD nullFrame).format ≠ .AV_SAMPLE_FMT_S16)
    (h2 : (st.frame.getD nullFrame).format ≠ .AV_SAMPLE_FMT_S16P)
    (h3 : (st.frame.getD nullFrame).format ≠ .AV_SAMPLE_FMT_FLT)
    (h4 : (st.frame.getD nullFrame).format ≠ .AV_SAMPLE_FMT_FLTP) :
    encode st env samples = [] := by
  have hconv : convertFrame (st.frame.getD nullFrame).format
      (st.frame.getD nullFrame).nb_samples
      (st.frame.getD nullFrame).channels samples = none := by
    cases hf : (st.frame.getD nullFrame).format <;>
      simp_all [convertFrame]
  simp only [encode]
  split
  · rfl
  split
  · rfl
  rw [hconv]

/-- Witness for C8: an initialized encoder negotiated to planar doubles
rejects a correctly sized buffer with an empty result. -/
theorem claim_C8_witness : encode stDbl envOkPacket exactBuffer = [] :=
  claim_C8 stDbl envOkPacket exactBuffer rfl (by decide) (by decide)
    (by decide) (by decide)

/-- C10: the runtime size validation inside `encode` rejects an input
exactly when `usedSize / 2` (floor) differs from
`frame_size × channels`; consequently a used size that differs from
`getInputBufferByteSize` by one byte still passes it. -/
theorem claim_C10 (st : EncoderState) (ctx : AVCodecContext) (fr : AVFrame)
    (hinit : st.initialized = true) (hctx : st.context = some ctx)
    (hfr : st.frame = some fr) (hnb : fr.nb_samples = ctx.frame_size)
    (hch : fr.channels = ctx.channels) :
    (∀ (env : EncodeEnv) (samples : ByteBuffer),
      samples.getUsedSize / 2 ≠ fr.nb_samples * fr.channels →
      encode st env samples = []) ∧
    ∃ n : Nat, n ≠ getInputBufferByteSize st ∧
      n / 2 = fr.nb_samples * fr.channels := by
  constructor
  · intro env samples hsz
    simp [encode, hfr, hsz]
  · refine ⟨ctx.frame_size * 2 * ctx.channels + 1, ?_, ?_⟩
    · simp only [getInputBufferByteSize, hinit, if_pos, hctx, Option.getD_some]
      omega
    · rw [hnb, hch]
      have h2 : ctx.frame_size * 2 * ctx.channels =
          2 * (ctx.frame_size * ctx.channels) := by ring
      rw [h2]
      omega

/-- Witness for C10: a 3-byte buffer (1 sample, needing 1920) is
rejected with an empty result. -/
theorem claim_C10_witness : encode stC3 envNoPacket tinyBuffer = [] :=
  (claim_C10 stC3 ctxC3 frameC3 rfl rfl rfl rfl rfl).1 envNoPacket
    tinyBuffer (by decide)

/-- C3 (code bug): on the spec's 3840-byte input contract, a 3841-byte
buffer has a used size different from `getInputBufferByteSize`, yet the
runtime validation computes `3841 / 2 = 1920 = 960 × 2` samples and
`encode` proceeds to conversion and returns the backend's packet instead
of the empty failure result the contract requires. -/
theorem claim_C3_bug :
    getInputBufferByteSize stC3 = 3840 ∧
    oversizedBuffer.getUsedSize = 3841 ∧
    oversizedBuffer.getUsedSize ≠ getInputBufferByteSize stC3 ∧
    encode stC3 envOkPacket oversizedBuffer = [[9, 9, 9]] := by
  have h1 : getInputBufferByteSize stC3 = 3840 := rfl
  have h2 : oversizedBuffer.getUsedSize = 3841 := List.length_replicate 3841 1
  refine ⟨h1, h2, by rw [h1, h2]; omega, ?_⟩
  have hsz : oversizedBuffer.getUsedSize / 2 =
      (stC3.frame.getD nullFrame).nb_samples *
        (stC3.frame.getD nullFrame).channels := by
    rw [h2]
    decide
  unfold encode
  rw [if_neg (show ¬ envOkPacket.makeWritableRet < 0 by decide),
    if_neg (show ¬ oversizedBuffer.getUsedSize / 2 ≠
      (stC3.frame.getD nullFrame).nb_samples *
        (stC3.frame.getD nullFrame).channels by rw [hsz]; simp)]
  rfl

/-- C5 (code bug): the `AV_SAMPLE_FMT_S16` arm of `encode` feeds the
frame plane from the `ByteBuffer` object itself (`memcpy`'s source is
`samples`, not `samples->getPointer()`), so the plane receives the
object's bookkeeping bytes, not the buffer's valid audio bytes. -/
theorem claim_C5_bug :
    convertFrame .AV_SAMPLE_FMT_S16 1 2 s16Buffer =
      some (.s16Interleaved
        (s16Buffer.objectRepr.take s16Buffer.getUsedSize)) ∧
    s16Buffer.objectRepr.take s16Buffer.getUsedSize = [160, 134, 1, 0] ∧
    s16Buffer.objectRepr.take s16Buffer.getUsedSize ≠ s16Buffer.data := by
  refine ⟨rfl, by decide, by decide⟩

/-! ## Claim C6: planar-float conversion round trip -/

/-- Reading bytes as 16-bit samples halves the length (a trailing odd
byte is dropped). -/
theorem bytesToU16_length : ∀ bs : List Nat,
    (bytesToU16 bs).length = bs.length / 2
  | [] => by simp [bytesToU16]
  | [_] => by simp [bytesToU16]
  | _ :: _ :: rest => by
    simp only [bytesToU16, List.length_cons, bytesToU16_length rest]
    omega

/-- The int16 view of a byte list also halves the length. -/
theorem bytesToS16_length (bs : List Nat) :
    (bytesToS16 bs).length = bs.length / 2 := by
  simp [bytesToS16, bytesToU16_length]

/-- Every 16-bit value read from bytes below 256 is below 65536. -/
theorem bytesToU16_lt : ∀ bs : List Nat, (∀ x ∈ bs, x < 256) →
    ∀ u ∈ bytesToU16 bs, u < 65536
  | [], _ => by simp [bytesToU16]
  | [_], _ => by simp [bytesToU16]
  | lo :: hi :: rest, hb => by
    simp only [bytesToU16, List.mem_cons]
    rintro u (rfl | hu)
    · have h1 := hb lo (by simp)
      have h2 := hb hi (by simp)
      omega
    · exact bytesToU16_lt rest (fun x hx => hb x (by simp [hx])) u hu

/-- Every int16 sample read from valid bytes lies in the int16 range. -/
theorem bytesToS16_bounds (bs : List Nat) (hb : ∀ x ∈ bs, x < 256) :
    ∀ z ∈ bytesToS16 bs, -32768 ≤ z ∧ z ≤ 32767 := by
  intro z hz
  simp only [bytesToS16, List.mem_map] at hz
  obtain ⟨u, hu, rfl⟩ := hz
  have hlt := bytesToU16_lt bs hb u hu
  unfold u16ToS16
  split <;> omega

/-- An indexed read from the int16 view, defaulting to silence, stays in
the int16 range. -/
theorem getD_s16_bounds (bs : List Nat) (hb : ∀ x ∈ bs, x < 256) (k : Nat) :
    -32768 ≤ (bytesToS16 bs).getD k 0 ∧ (bytesToS16 bs).getD k 0 ≤ 32767 := by
  rcases Nat.lt_or_ge k (bytesToS16 bs).length with h | h
  · rw [List.getD_eq_getElem _ _ h]
    exact bytesToS16_bounds bs hb _ (List.getElem_mem h)
  · rw [List.getD_eq_default _ _ h]
    constructor <;> norm_num

/-- The normalization maps the int16 range into `[-1, 1]`. -/
theorem int16ToFloat_bounds (z : Int) (h1 : -32768 ≤ z) (h2 : z ≤ 32767) :
    -1 ≤ int16ToFloat z ∧ int16ToFloat z ≤ 1 := by
  unfold int16ToFloat
  constructor
  · rw [le_div_iff₀ (by norm_num : (0 : ℚ) < 32768)]
    have hc : (-32768 : ℚ) ≤ (z : ℚ) := by exact_mod_cast h1
    linarith
  · rw [div_le_one (by norm_num : (0 : ℚ) < 32768)]
    have hc : (z : ℚ) ≤ 32767 := by exact_mod_cast h2
    linarith

/-- An indexed read from a mapped range list is the function value. -/
theorem getD_map_range {α : Type} (g : Nat → α) (n j : Nat) (d : α)
    (h : j < n) : ((List.range n).map g).getD j d = g j := by
  rw [List.getD_eq_getElem _ d (by simpa using h)]
  simp

/-- An indexed read past a drop reads at the shifted index. -/
theorem getD_drop_add {α : Type} (s : List α) (k i : Nat) (d : α) :
    (s.drop k).getD i d = s.getD (k + i) d := by
  simp [List.getD, List.getElem?_drop]

/-- Reading the first `n` indices of a list through `getD` is `take`. -/
theorem map_range_getD_take {α : Type} (s : List α) (d : α) (n : Nat)
    (h : n ≤ s.length) :
    (List.range n).map (fun j => s.getD j d) = s.take n := by
  apply List.ext_getElem
  · simp only [List.length_map, List.length_range, List.length_take]
    omega
  · intro i h1 h2
    simp only [List.length_map, List.length_range] at h1
    rw [List.getElem_map, List.getElem_range, List.getElem_take,
      List.getD_eq_getElem _ d (by omega)]

/-- An indexed read inside the taken prefix reads the original list. -/
theorem getD_take_lt {α : Type} (s : List α) (m k : Nat) (d : α)
    (hk : k < m) (hm : m ≤ s.length) :
    (s.take m).getD k d = s.getD k d := by
  rw [List.getD_eq_getElem _ _
      (by simp only [List.length_take]; omega),
    List.getD_eq_getElem _ _ (by omega), List.getElem_take]

/-- Reading back a `nb × ch` grid of indexed samples row by row
reconstructs the list. -/
theorem flatMap_range_getD {α : Type} (d : α) :
    ∀ (nb ch : Nat) (s : List α), s.length = nb * ch →
    ((List.range nb).flatMap fun i =>
      (List.range ch).map fun j => s.getD (i * ch + j) d) = s := by
  intro nb
  induction nb with
  | zero =>
    intro ch s h
    simp only [Nat.zero_mul] at h
    simp [List.eq_nil_of_length_eq_zero h]
  | succ n ih =>
    intro ch s h
    have hlen : s.length = n * ch + ch := by rw [h, Nat.succ_mul]
    rw [List.range_succ, List.flatMap_append]
    have hfront : ((List.range n).flatMap fun i =>
        (List.range ch).map fun j => s.getD (i * ch + j) d) =
        s.take (n * ch) := by
      rw [show ((List.range n).flatMap fun i =>
          (List.range ch).map fun j => s.getD (i * ch + j) d) =
          (List.range n).flatMap fun i => (List.range ch).map fun j =>
            (s.take (n * ch)).getD (i * ch + j) d from ?_]
      · exact ih ch (s.take (n * ch)) (by simp [List.length_take]; omega)
      · apply List.flatMap_congr
        intro i hi
        apply List.map_congr_left
        intro j hj
        rw [List.mem_range] at hi hj
        rw [getD_take_lt s (n * ch) (i * ch + j) d
          (by
            have : i * ch + j < (i + 1) * ch := by
              rw [Nat.succ_mul]
              omega
            have hle : (i + 1) * ch ≤ n * ch := Nat.mul_le_mul_right ch hi
            omega)
          (by omega)]
    have hlast : ([n].flatMap fun i =>
        (List.range ch).map fun j => s.getD (i * ch + j) d) =
        s.drop (n * ch) := by
      rw [List.flatMap_cons, List.flatMap_nil, List.append_nil]
      rw [show ((List.range ch).map fun j => s.getD (n * ch + j) d) =
          (List.range ch).map fun j => (s.drop (n * ch)).getD j d from by
        apply List.map_congr_left
        intro j _
        rw [getD_drop_add]]
      rw [map_range_getD_take (s.drop (n * ch)) d ch
        (by rw [List.length_drop]; omega)]
      exact List.take_of_length_le (by rw [List.length_drop]; omega)
    rw [hfront, hlast]
    exact List.take_append_drop (n * ch) s

/-- An indexed read from the float view is the normalization of the
indexed int16 read (silence defaults to 0 on both sides). -/
theorem getD_map_int16ToFloat (l : List Int) (k : Nat) :
    (l.map int16ToFloat).getD k 0 = int16ToFloat (l.getD k 0) := by
  rcases Nat.lt_or_ge k l.length with h | h
  · rw [List.getD_eq_getElem _ _ (by simpa using h),
      List.getD_eq_getElem _ _ h, List.getElem_map]
  · rw [List.getD_eq_default _ _ (by simpa using h),
      List.getD_eq_default _ _ h]
    simp [int16ToFloat]

/-- Re-interleaving the planar-float planes recovers the elementwise
normalized int16 stream. -/
theorem interleave_fltp (samples : ByteBuffer) (nb ch : Nat) :
    interleavePlanes (fltpPlanes samples nb ch) nb ch =
      (List.range nb).flatMap fun i => (List.range ch).map fun j =>
        ((bytesToS16 samples.data).map int16ToFloat).getD (i * ch + j) 0 := by
  unfold interleavePlanes
  apply List.flatMap_congr
  intro i hi
  apply List.map_congr_left
  intro j hj
  rw [List.mem_range] at hi hj
  rw [show (fltpPlanes samples nb ch).getD j [] =
      (List.range nb).map fun i2 =>
        int16ToFloat ((bytesToS16 samples.data).getD (i2 * ch + j) 0) from by
    unfold fltpPlanes
    exact getD_map_range _ ch j [] hj]
  rw [getD_map_range _ nb i 0 hi, getD_map_int16ToFloat]

/-- C6: with planar-float output, `encode` de-interleaves the int16 input
per channel into values normalized to `[-1, 1]`, and re-interleaving the
planes and undoing the normalization recovers every input sample exactly
(the rational arithmetic is exact for these values). -/
theorem claim_C6 (samples : ByteBuffer) (nb ch : Nat)
    (hlen : samples.data.length = 2 * (nb * ch))
    (hbytes : ∀ x ∈ samples.data, x < 256) :
    (interleavePlanes (fltpPlanes samples nb ch) nb ch).map floatToInt16Exact
      = List.map (fun z : Int => (z : ℚ)) (bytesToS16 samples.data) ∧
    ∀ p ∈ fltpPlanes samples nb ch, ∀ q ∈ p, -1 ≤ q ∧ q ≤ 1 := by
  constructor
  · rw [interleave_fltp samples nb ch,
      flatMap_range_getD 0 nb ch ((bytesToS16 samples.data).map int16ToFloat)
        (by rw [List.length_map, bytesToS16_length, hlen]; omega),
      List.map_map]
    apply List.map_congr_left
    intro z _
    simp only [Function.comp_apply, int16ToFloat, floatToInt16Exact]
    rw [div_mul_cancel₀ _ (by norm_num : (32768 : ℚ) ≠ 0)]
  · intro p hp q hq
    simp only [fltpPlanes, List.mem_map] at hp
    obtain ⟨j, _, rfl⟩ := hp
    simp only [List.mem_map] at hq
    obtain ⟨i, _, rfl⟩ := hq
    have hb := getD_s16_bounds samples.data hbytes (i * ch + j)
    exact int16ToFloat_bounds _ hb.1 hb.2

/-- Witness for C6: a 1-frame, 2-channel pattern with samples 0x1234 and
0xABCD survives the round trip and lies in `[-1, 1]`. -/
theorem claim_C6_witness :
    (interleavePlanes (fltpPlanes fltpBuffer 1 2) 1 2).map floatToInt16Exact
      = List.map (fun z : Int => (z : ℚ)) (bytesToS16 fltpBuffer.data) :=
  (claim_C6 fltpBuffer 1 2 (by decide) (by decide)).1

end Bochan
